import Mathlib

/-!
camera-import: the scan / aggregate pipeline of `main.go`

A shallow embedding of `src/main.go`.

* Go strings are Lean `String`s. The only bytes the program inspects are the
  ASCII characters `.` and `/`, so reading a path character by character or
  byte by byte gives the same extension for every UTF-8 path.
* `int64` values are `Int`s; every `+=` on an `int64` is followed by `wrap64`,
  the two's complement reduction to 64 bits.
* `time.Time` is an instant (nanoseconds since January 1, year 1, 00:00:00 UTC,
  the instant `IsZero` tests for) together with the zone offset that `Format`
  uses to render it.
* What the program obtains from outside (the `exiftool` subprocess, the
  Unicode tables behind `strings.ToLower` and `strings.TrimSpace`, the layout
  parser of package `time`, `filepath.Join`) is collected in `Env`.
* The goroutines of `readFiles` hand their records to one channel, so the
  consumer sees the records of a completed scan in some permutation of walk
  order. `log.Fatal` is the `fatal` outcome: the process exits.
-/

namespace CameraImport

/-! ## Package `time` -/

/-- Value of Go type `time.Time`: `nanos` is the instant, counted in nanoseconds
from January 1, year 1, 00:00:00 UTC; `offset` is the number of seconds east of
UTC in force in the value's location at that instant. -/
structure Time where
  nanos : Int
  offset : Int
deriving DecidableEq, Repr

/-- The value `time.Time{}` of an uninitialised variable (instant 0, UTC). -/
def Time.zero : Time := ⟨0, 0⟩

/-- Go `t.IsZero()`: the instant is January 1, year 1, 00:00:00 UTC. -/
def Time.IsZero (t : Time) : Bool := decide (t.nanos = 0)

/-- Go `t.After(u)`: the instant of `t` is after the instant of `u`. -/
def Time.After (t u : Time) : Bool := decide (u.nanos < t.nanos)

/-- Go `t.Before(u)`: the instant of `t` is before the instant of `u`. -/
def Time.Before (t u : Time) : Bool := decide (t.nanos < u.nanos)

/-- Gregorian leap year rule (`isLeap` of package `time`). -/
def isLeap (year : Int) : Bool :=
  decide (year % 4 = 0) && (decide (year % 100 ≠ 0) || decide (year % 400 = 0))

/-- Table `daysBefore` of package `time`: days of a non-leap year before each month. -/
def daysBefore : List Nat := [0, 31, 59, 90, 120, 151, 181, 212, 243, 273, 304, 334, 365]

/-- Year, month and day of the day that lies `days` days after January 1, year 1
(`absDate` followed by the month computation of `Time.date` in package `time`). -/
def civil (days : Int) : Int × Nat × Nat :=
  let n400 := days / 146097
  let d := (days % 146097).toNat
  let n100 := d / 36524
  let n100 := n100 - n100 / 4
  let d := d - 36524 * n100
  let n4 := d / 1461
  let d := d - 1461 * n4
  let n := d / 365
  let n := n - n / 4
  let yday := d - 365 * n
  let year : Int := 1 + 400 * n400 + ((100 * n100 + 4 * n4 + n : Nat) : Int)
  if isLeap year && decide (yday = 31 + 29 - 1) then (year, 2, 29)
  else
    let day := if isLeap year && decide (yday > 31 + 29 - 1) then yday - 1 else yday
    let month := day / 31
    let stop := daysBefore.getD (month + 1) 0
    if day ≥ stop then (year, month + 2, day - stop + 1)
    else (year, month + 1, day - daysBefore.getD month 0 + 1)

/-- Decimal digits of `n`, padded on the left with zeros to `width` characters
(`appendInt` of package `time` on a non-negative number). -/
def padNat (width n : Nat) : List Char :=
  let ds := Nat.toDigits 10 n
  List.replicate (width - ds.length) '0' ++ ds

/-- Go `appendInt(b, x, width)`: a minus sign for a negative number, then the
zero-padded digits of its absolute value. -/
def appendInt (x : Int) (width : Nat) : List Char :=
  if x < 0 then '-' :: padNat width x.natAbs else padNat width x.natAbs

/-- Go `t.Format("20060102")`: year, month and day of `t` in its own location. -/
def Time.Format (t : Time) : String :=
  let abs := t.nanos / 1000000000 + t.offset
  let (year, month, day) := civil (abs / 86400)
  ⟨appendInt year 4 ++ padNat 2 month ++ padNat 2 day⟩

/-- Go `time.Date(year, month, day, hour, min, sec, 0, loc)` for arguments that
are already in range (month 1..12, day within the month, hour < 24, min < 60,
sec < 60), `offset` being the offset of `loc` at that wall-clock time. This is
the value the layout parser builds from the fields it has read. -/
def Date (year : Int) (month day hour min sec : Nat) (offset : Int) : Time :=
  let y := year - 1
  let days : Int := 365 * y + y / 4 - y / 100 + y / 400
    + (daysBefore.getD (month - 1) 0 : Nat)
    + (if isLeap year && decide (3 ≤ month) then 1 else 0)
    + ((day - 1 : Nat) : Int)
  let secs : Int := days * 86400 + ((hour * 3600 + min * 60 + sec : Nat) : Int) - offset
  ⟨secs * 1000000000, offset⟩

/-! ## Package `path/filepath` and the environment -/

/-- Loop of `filepath.Ext`, run over the path from its last character backwards;
`acc` is the suffix already passed. -/
def extAux : List Char → List Char → List Char
  | [], _ => []
  | c :: rest, acc =>
    if c = '/' then []
    else if c = '.' then c :: acc
    else extAux rest (c :: acc)

/-- Go `filepath.Ext(path)` on a system whose path separator is `/` (the presets
of `main` are Unix paths): the suffix beginning at the final dot in the final
slash-separated element of `path`; empty if there is no dot. -/
def Ext (path : String) : String := ⟨extAux path.data.reverse []⟩

/-- What the program obtains from its collaborators and from library tables. -/
structure Env where
  /-- Go `strings.ToLower`. -/
  toLower : String → String
  /-- Go `strings.TrimSpace`. -/
  trimSpace : String → String
  /-- Run `exiftool -CreateDate -s -S path`: its standard output when `cmd.Run()`
  returns no error, `none` when it returns one. -/
  exiftool : String → Option String
  /-- Go `time.ParseInLocation("2006:01:02 15:04:05", s, time.Local)`; `none` on error. -/
  parseInLocation : String → Option Time
  /-- Go `time.Parse("2006:01:02 15:04:05-07:00", s)`; `none` on error. -/
  parse : String → Option Time
  /-- Go `filepath.Join(dir, name)`. -/
  join : String → String → String

/-! ## The records -/

/-- Go `type file struct`. -/
structure file where
  path : String
  isMedia : Bool
  size : Int
  time : Time
deriving DecidableEq, Repr

/-- Go `type walkDirFuncArgs struct`: the path and what the program asks of the
`fs.DirEntry`: `d.IsDir()` and `d.Info()` (`none` when `Info` returns an error,
otherwise the `Size()` of the `FileInfo`). -/
structure walkDirFuncArgs where
  path : String
  isDir : Bool
  info : Option Int
deriving DecidableEq, Repr

/-- Go `exifCreateDate(path)`; `none` is `log.Fatalf`. -/
def exifCreateDate (env : Env) (path : String) : Option Time :=
  match env.exiftool path with
  | none => none
  | some stdout =>
    let timeStr := env.trimSpace stdout
    match env.parseInLocation timeStr with
    | some t => some t
    | none =>
      match env.parse timeStr with
      | some t => some t
      | none => none

/-- The extensions listed in the `switch` of `readFiles`. -/
def mediaExtensions : List String := [".cr2", ".cr3", ".jpg", ".mov", ".mp4", ".rw2"]

/-- Outcome of one iteration of a worker of `readFiles`. -/
inductive Outcome where
  | skipped
  | fatal
  | emitted (f : file)
deriving DecidableEq, Repr

/-- Body of the loop `for args := range in` of a worker of `readFiles`. -/
def readFilesBody (env : Env) (args : walkDirFuncArgs) : Outcome :=
  if args.isDir then .skipped
  else
    match args.info with
    | none => .fatal
    | some size =>
      if env.toLower (Ext args.path) ∈ mediaExtensions then
        match exifCreateDate env args.path with
        | none => .fatal
        | some t => .emitted { path := args.path, isMedia := true, size := size, time := t }
      else
        .emitted { path := args.path, isMedia := false, size := size, time := Time.zero }

/-- Go `readFiles(in)` run to completion, the records listed in walk order;
`none` when an iteration ends in `log.Fatal`. -/
def readFiles (env : Env) : List walkDirFuncArgs → Option (List file)
  | [] => some []
  | args :: rest =>
    match readFilesBody env args with
    | .fatal => none
    | .skipped => readFiles env rest
    | .emitted f =>
      match readFiles env rest with
      | none => none
      | some fs => some (f :: fs)

/-- The slices `listFiles` can return for a completed scan of `entries`: the
records of `readFiles` in the order in which the workers delivered them. -/
def Scans (env : Env) (entries : List walkDirFuncArgs) (files : List file) : Prop :=
  ∃ recs, readFiles env entries = some recs ∧ files.Perm recs

/-! ## `main` -/

/-- Two's complement reduction of an integer to the range of `int64`. -/
def wrap64 (x : Int) : Int := (x + 9223372036854775808) % 18446744073709551616 - 9223372036854775808

/-- Go `map[string]int`: `none` for a key that is not in the map. -/
abbrev ExtCount := String → Option Int

/-- Go `m[k]++`: a missing key reads as 0 and is inserted. The counter is
bounded by the length of the slice being ranged over, itself a Go `int`. -/
def ExtCount.incr (m : ExtCount) (k : String) : ExtCount :=
  fun k' => if k' = k then some ((m k').getD 0 + 1) else m k'

/-- The variables of `main` that the loop over `listFiles(*src)` updates. -/
structure Totals where
  metadata : ExtCount
  totalBytes : Int
  metadataBytes : Int
  lo : Time
  hi : Time

/-- The variables as declared before the loop. -/
def Totals.init : Totals :=
  { metadata := fun _ => none, totalBytes := 0, metadataBytes := 0, lo := Time.zero, hi := Time.zero }

/-- One iteration of `for _, f := range listFiles(*src)`. -/
def aggregateStep (s : Totals) (f : file) : Totals :=
  let totalBytes := wrap64 (s.totalBytes + f.size)
  if !f.isMedia then
    { s with
      totalBytes := totalBytes
      metadata := s.metadata.incr (Ext f.path)
      metadataBytes := wrap64 (s.metadataBytes + f.size) }
  else
    let lo := if s.lo.IsZero || s.lo.After f.time then f.time else s.lo
    let hi := if s.hi.IsZero || s.hi.Before f.time then f.time else s.hi
    { s with totalBytes := totalBytes, lo := lo, hi := hi }

/-- The loop of `main` over the slice returned by `listFiles`. -/
def aggregate (files : List file) : Totals := files.foldl aggregateStep Totals.init

/-- Second argument of `filepath.Join` in `main`: the dated folder name. -/
def folderName (t : Totals) : String := t.lo.Format ++ "_" ++ t.hi.Format

/-- Last argument of the `rsync` command built in `main`. -/
def destination (env : Env) (dst : String) (t : Totals) : String :=
  env.join dst (folderName t) ++ "/"

/-- The `switch *camera` of `main`: the values of `*src` and `*dst` after it. -/
def applyCamera (src dst camera : String) : String × String :=
  if camera = "5dii" then ("/media/keisuke/EOS_DIGITAL", "/tank/photos/keisuke/Pictures/5DII")
  else if camera = "gh5" then ("/media/keisuke/LUMIX", "/tank/photos/keisuke/Pictures/GH5")
  else if camera = "r6" then ("/media/keisuke/EOS_DIGITAL", "/tank/photos/keisuke/Pictures/R6")
  else if camera = "gopro" then ("/media/keisuke/7000-8000", "/tank/photos/keisuke/Pictures/GOPRO")
  else if camera = "gm1" then (src, "/tank/photos/keisuke/Pictures/GM1")
  else if camera = "gx1s" then (src, "/tank/photos/keisuke/Pictures/GX1S")
  else if camera = "gx1b" then (src, "/tank/photos/keisuke/Pictures/GX1B")
  else (src, dst)

/-- Argument resolution of `main`: the `switch`, then the check
`*src == "" || *dst == ""`; `none` is `log.Fatal("invalid arguments")`. -/
def resolveArgs (src dst camera : String) : Option (String × String) :=
  let r := applyCamera src dst camera
  if r.1 = "" ∨ r.2 = "" then none else some r

/-- The camera names that have a `case` in the `switch` of `main`. -/
def cameraNames : List String := ["5dii", "gh5", "r6", "gopro", "gm1", "gx1s", "gx1b"]

/-! ## A concrete environment and concrete inputs -/

/-- Lower-casing of the ASCII letters; what `unicode.ToLower` does on ASCII. -/
def lowerAscii (c : Char) : Char :=
  if 65 ≤ c.toNat ∧ c.toNat ≤ 90 then Char.ofNat (c.toNat + 32) else c

/-- ASCII white space. -/
def isAsciiSpace (c : Char) : Bool :=
  c = ' ' || c = '\t' || c = '\n' || c = '\r' || c.toNat = 11 || c.toNat = 12

/-- An environment for evaluating the program on the ASCII inputs below: an
`exiftool` that knows five files, and the results of the two layout parsers on
the strings it prints (`time.Local` being nine hours east of UTC). -/
def sampleEnv : Env where
  toLower := fun s => ⟨s.data.map lowerAscii⟩
  trimSpace := fun s => ⟨((s.data.dropWhile isAsciiSpace).reverse.dropWhile isAsciiSpace).reverse⟩
  exiftool := fun path =>
    if path = "DCIM/photo.jpg" then some "2023:05:01 10:00:00\n"
    else if path = "DCIM/IMG_0001.CR2" then some "2022:01:15 08:00:00\n"
    else if path = "DCIM/MVI_0002.MOV" then some "2022:03:20 18:30:00\n"
    else if path = "DCIM/unset.jpg" then some "0001:01:01 00:00:00+00:00\n"
    else if path = "DCIM/empty.jpg" then some "\n"
    else none
  parseInLocation := fun s =>
    if s = "2023:05:01 10:00:00" then some (Date 2023 5 1 10 0 0 32400)
    else if s = "2022:01:15 08:00:00" then some (Date 2022 1 15 8 0 0 32400)
    else if s = "2022:03:20 18:30:00" then some (Date 2022 3 20 18 30 0 32400)
    else none
  parse := fun s =>
    if s = "0001:01:01 00:00:00+00:00" then some (Date 1 1 1 0 0 0 0)
    else none
  join := fun dir name => dir ++ "/" ++ name

/-- A card with one photo and one text file. -/
def sampleEntries : List walkDirFuncArgs :=
  [ ⟨"DCIM", true, none⟩,
    ⟨"DCIM/photo.jpg", false, some 1000⟩,
    ⟨"DCIM/notes.txt", false, some 200⟩ ]

/-- The records of `sampleEntries`. -/
def sampleFiles : List file :=
  [ ⟨"DCIM/photo.jpg", true, 1000, Date 2023 5 1 10 0 0 32400⟩,
    ⟨"DCIM/notes.txt", false, 200, Time.zero⟩ ]

/-- Two sparse files of 4 EiB each. -/
def hugeEntries : List walkDirFuncArgs :=
  [ ⟨"a.img", false, some 4611686018427387904⟩,
    ⟨"b.img", false, some 4611686018427387904⟩ ]

/-- The records of `hugeEntries`. -/
def hugeFiles : List file :=
  [ ⟨"a.img", false, 4611686018427387904, Time.zero⟩,
    ⟨"b.img", false, 4611686018427387904, Time.zero⟩ ]

/-! ## Quantities the statements speak about -/

/-- Sum of the sizes of the records. -/
def sizeSum (files : List file) : Int := (files.map (fun f => f.size)).sum

/-- The records that are not media files. -/
def nonMedia (files : List file) : List file := files.filter (fun f => !f.isMedia)

/-- The records that are media files. -/
def media (files : List file) : List file := files.filter (fun f => f.isMedia)

/-- The entries that are not directories. -/
def nonDirs (entries : List walkDirFuncArgs) : List walkDirFuncArgs :=
  entries.filter (fun e => !e.isDir)

/-- Size of an entry as reported by `d.Info()`. -/
def entrySize (e : walkDirFuncArgs) : Int := e.info.getD 0

/-- Number of non-media records whose extension, as written, is `k`. -/
def extOccurrences (files : List file) (k : String) : Nat :=
  (nonMedia files).countP (fun f => decide (Ext f.path = k))

/-! ## Further concrete inputs -/

/-- A single empty photo. -/
def emptyPhoto : List file := [⟨"DCIM/photo.jpg", true, 0, Date 2023 5 1 10 0 0 32400⟩]

/-- A text file and a video of 4 EiB each. -/
def hugeMixed : List file :=
  [ ⟨"a.txt", false, 4611686018427387904, Time.zero⟩,
    ⟨"b.mov", true, 4611686018427387904, Date 2022 3 20 18 30 0 32400⟩ ]

/-- A card whose second photo has the creation date `0001:01:01 00:00:00+00:00`. -/
def unsetEntries : List walkDirFuncArgs :=
  [ ⟨"DCIM/IMG_0001.CR2", false, some 7⟩,
    ⟨"DCIM/unset.jpg", false, some 5⟩,
    ⟨"DCIM/MVI_0002.MOV", false, some 9⟩ ]

/-- The records of `unsetEntries`. -/
def unsetFiles : List file :=
  [ ⟨"DCIM/IMG_0001.CR2", true, 7, Date 2022 1 15 8 0 0 32400⟩,
    ⟨"DCIM/unset.jpg", true, 5, Time.zero⟩,
    ⟨"DCIM/MVI_0002.MOV", true, 9, Date 2022 3 20 18 30 0 32400⟩ ]

/-- Two media files captured on 2022-01-15 and on 2022-03-20. -/
def twoFiles : List file :=
  [ ⟨"DCIM/IMG_0001.CR2", true, 7, Date 2022 1 15 8 0 0 32400⟩,
    ⟨"DCIM/MVI_0002.MOV", true, 9, Date 2022 3 20 18 30 0 32400⟩ ]

/-- A photo stamped 23:30 five hours west of UTC. -/
def eveningWest : file := ⟨"a.jpg", true, 1, Date 2022 1 15 23 30 0 (-18000)⟩

/-- A photo stamped 04:30 UTC of the next day: the same instant as `eveningWest`. -/
def morningUTC : file := ⟨"b.jpg", true, 1, Date 2022 1 16 4 30 0 0⟩

/-- A photo whose timestamp is the zero time. -/
def unsetPhoto : file := ⟨"DCIM/unset.jpg", true, 5, Time.zero⟩

/-- A photo taken on 2022-01-15. -/
def januaryPhoto : file := ⟨"DCIM/IMG_0001.CR2", true, 7, Date 2022 1 15 8 0 0 32400⟩

/-- A text file whose name is written in capitals. -/
def capitalNotes : List file := [⟨"DCIM/NOTES.TXT", false, 200, Time.zero⟩]

/-! ## Auxiliary facts -/

theorem wrap64_add_left (a b : Int) : wrap64 (wrap64 a + b) = wrap64 (a + b) := by
  unfold wrap64
  omega

theorem wrap64_of_range (a : Int) (h₁ : -9223372036854775808 ≤ a) (h₂ : a < 9223372036854775808) :
    wrap64 a = a := by
  unfold wrap64
  omega

theorem aggregate_nil : aggregate [] = Totals.init := rfl

theorem aggregate_snoc (l : List file) (x : file) :
    aggregate (l ++ [x]) = aggregateStep (aggregate l) x := by
  simp [aggregate, List.foldl_append]

theorem sizeSum_snoc (l : List file) (x : file) : sizeSum (l ++ [x]) = sizeSum l + x.size := by
  simp [sizeSum]

theorem nonMedia_snoc (l : List file) (x : file) :
    nonMedia (l ++ [x]) = if x.isMedia then nonMedia l else nonMedia l ++ [x] := by
  cases h : x.isMedia <;> simp [nonMedia, List.filter_append, List.filter_cons, h]

theorem media_snoc (l : List file) (x : file) :
    media (l ++ [x]) = if x.isMedia then media l ++ [x] else media l := by
  cases h : x.isMedia <;> simp [media, List.filter_append, List.filter_cons, h]

theorem totalBytes_eq (files : List file) :
    (aggregate files).totalBytes = wrap64 (sizeSum files) := by
  induction files using List.reverseRecOn with
  | nil => rfl
  | append_singleton l x ih =>
    rw [aggregate_snoc, sizeSum_snoc]
    have : (aggregateStep (aggregate l) x).totalBytes
        = wrap64 ((aggregate l).totalBytes + x.size) := by
      unfold aggregateStep
      split <;> rfl
    rw [this, ih, wrap64_add_left]

theorem metadataBytes_eq (files : List file) :
    (aggregate files).metadataBytes = wrap64 (sizeSum (nonMedia files)) := by
  induction files using List.reverseRecOn with
  | nil => rfl
  | append_singleton l x ih =>
    rw [aggregate_snoc, nonMedia_snoc]
    cases h : x.isMedia
    · simp only [aggregateStep, h, Bool.not_false, if_true, sizeSum_snoc, Bool.false_eq_true,
        if_false]
      rw [ih, wrap64_add_left]
    · simp only [aggregateStep, h, Bool.not_true, Bool.false_eq_true, if_false, if_true]
      exact ih

theorem aggregateStep_nonMedia (s : Totals) (x : file) (h : x.isMedia = false) :
    aggregateStep s x =
      { s with
        totalBytes := wrap64 (s.totalBytes + x.size)
        metadata := s.metadata.incr (Ext x.path)
        metadataBytes := wrap64 (s.metadataBytes + x.size) } := by
  simp [aggregateStep, h]

theorem aggregateStep_media (s : Totals) (x : file) (h : x.isMedia = true) :
    aggregateStep s x =
      { s with
        totalBytes := wrap64 (s.totalBytes + x.size)
        lo := if s.lo.IsZero || s.lo.After x.time then x.time else s.lo
        hi := if s.hi.IsZero || s.hi.Before x.time then x.time else s.hi } := by
  simp [aggregateStep, h]

theorem sizeSum_split (files : List file) :
    sizeSum files = sizeSum (nonMedia files) + sizeSum (media files) := by
  induction files with
  | nil => rfl
  | cons x l ih =>
    cases h : x.isMedia <;>
      simp [sizeSum, nonMedia, media, List.filter_cons, h] at ih ⊢ <;> omega

theorem sizeSum_nonneg (files : List file) (h : ∀ f ∈ files, 0 ≤ f.size) : 0 ≤ sizeSum files := by
  induction files with
  | nil => simp [sizeSum]
  | cons x l ih =>
    have hx := h x (List.mem_cons_self _ _)
    have hl := ih (fun f hf => h f (List.mem_cons_of_mem _ hf))
    simp [sizeSum] at hl ⊢
    omega

theorem sizeSum_eq_zero_iff (files : List file) (h : ∀ f ∈ files, 0 ≤ f.size) :
    sizeSum files = 0 ↔ ∀ f ∈ files, f.size = 0 := by
  induction files with
  | nil => simp [sizeSum]
  | cons x l ih =>
    have hx := h x (List.mem_cons_self _ _)
    have hl := fun f hf => h f (List.mem_cons_of_mem x hf)
    have h0 := sizeSum_nonneg l hl
    have ih := ih hl
    simp only [sizeSum, List.map_cons, List.sum_cons, List.mem_cons, forall_eq_or_imp] at ih h0 ⊢
    constructor
    · intro hs
      have h1 : x.size = 0 := by omega
      exact ⟨h1, ih.1 (by omega)⟩
    · rintro ⟨h1, h2⟩
      have := ih.2 h2
      omega

/-- What a completed `readFiles` returns, entry by entry. -/
theorem readFiles_forall₂ (env : Env) :
    ∀ (entries : List walkDirFuncArgs) (recs : List file), readFiles env entries = some recs →
      List.Forall₂ (fun e f => readFilesBody env e = .emitted f) (nonDirs entries) recs := by
  intro entries
  induction entries with
  | nil =>
    intro recs h
    simp [readFiles] at h
    subst h
    exact List.Forall₂.nil
  | cons e rest ih =>
    intro recs h
    unfold readFiles at h
    cases hb : readFilesBody env e with
    | fatal => simp [hb] at h
    | skipped =>
      have hd : e.isDir = true := by
        unfold readFilesBody at hb
        cases hdir : e.isDir
        · simp only [hdir, Bool.false_eq_true, if_false] at hb
          split at hb
          · cases hb
          · split at hb
            · split at hb <;> cases hb
            · cases hb
        · rfl
      simp only [hb] at h
      simpa [nonDirs, List.filter_cons, hd] using ih recs h
    | emitted f =>
      have hd : e.isDir = false := by
        unfold readFilesBody at hb
        cases hdir : e.isDir
        · rfl
        · simp [hdir] at hb
      simp only [hb] at h
      cases hr : readFiles env rest with
      | none => simp [hr] at h
      | some fs =>
        simp only [hr, Option.some.injEq] at h
        subst h
        have := ih fs hr
        simp only [nonDirs, List.filter_cons, hd, Bool.not_false, if_true]
        exact List.Forall₂.cons hb this

/-- A record emitted for an entry carries the path and the size of the entry. -/
theorem readFilesBody_emitted (env : Env) (e : walkDirFuncArgs) (f : file)
    (h : readFilesBody env e = .emitted f) :
    e.isDir = false ∧ f.path = e.path ∧ f.size = entrySize e ∧
      (f.isMedia = true ↔ env.toLower (Ext e.path) ∈ mediaExtensions) ∧
      (f.isMedia = false → f.time = Time.zero) ∧
      (f.isMedia = true → exifCreateDate env e.path = some f.time) := by
  unfold readFilesBody at h
  cases hdir : e.isDir
  · simp only [hdir, Bool.false_eq_true, if_false] at h
    cases hi : e.info with
    | none => simp [hi] at h
    | some size =>
      simp only [hi] at h
      by_cases hm : env.toLower (Ext e.path) ∈ mediaExtensions
      · simp only [hm, if_true] at h
        cases hx : exifCreateDate env e.path with
        | none => simp [hx] at h
        | some t =>
          simp only [hx, Outcome.emitted.injEq] at h
          subst h
          simp [entrySize, hi, hm]
      · simp only [hm, if_false, Outcome.emitted.injEq] at h
        subst h
        simp [entrySize, hi, hm]
  · simp [hdir] at h

theorem readFiles_paths (env : Env) (entries : List walkDirFuncArgs) (recs : List file)
    (h : readFiles env entries = some recs) :
    recs.map (fun f => f.path) = (nonDirs entries).map (fun e => e.path) ∧
      recs.map (fun f => f.size) = (nonDirs entries).map entrySize := by
  have h2 := readFiles_forall₂ env entries recs h
  clear h
  generalize nonDirs entries = es at h2
  induction h2 with
  | nil => simp
  | cons hb _ ih =>
    obtain ⟨_, hp, hs, _⟩ := readFilesBody_emitted env _ _ hb
    simp [hp, hs, ih.1, ih.2]

/-- A scan in which every `Info()` call and every `exifCreateDate` call succeeds
runs to completion. -/
theorem readFiles_completes (env : Env) (entries : List walkDirFuncArgs)
    (hinfo : ∀ e ∈ entries, e.isDir = false → e.info ≠ none)
    (hexif : ∀ e ∈ entries, e.isDir = false → env.toLower (Ext e.path) ∈ mediaExtensions →
      exifCreateDate env e.path ≠ none) :
    ∃ recs, readFiles env entries = some recs := by
  induction entries with
  | nil => exact ⟨[], rfl⟩
  | cons e rest ih =>
    obtain ⟨fs, hfs⟩ := ih (fun x hx => hinfo x (List.mem_cons_of_mem _ hx))
      (fun x hx => hexif x (List.mem_cons_of_mem _ hx))
    have hi := hinfo e (List.mem_cons_self _ _)
    have hx := hexif e (List.mem_cons_self _ _)
    unfold readFiles
    unfold readFilesBody
    cases hdir : e.isDir
    · simp only [Bool.false_eq_true, if_false]
      cases hinf : e.info with
      | none => exact absurd hinf (hi hdir)
      | some size =>
        by_cases hm : env.toLower (Ext e.path) ∈ mediaExtensions
        · cases hex : exifCreateDate env e.path with
          | none => exact absurd hex (hx hdir hm)
          | some t => simp [hm, hfs]
        · simp [hm, hfs]
    · simp [hfs]

theorem aggregateStep_lo_hi (s : Totals) (x : file) (h : x.isMedia = true) :
    (aggregateStep s x).lo.nanos ≤ x.time.nanos ∧
      x.time.nanos ≤ (aggregateStep s x).hi.nanos := by
  rw [aggregateStep_media s x h]
  constructor
  · show (if s.lo.IsZero || s.lo.After x.time then x.time else s.lo).nanos ≤ x.time.nanos
    split
    · exact le_refl _
    · rename_i hc
      simp only [Time.IsZero, Time.After, Bool.or_eq_true, decide_eq_true_eq, not_or, not_lt] at hc
      exact hc.2
  · show x.time.nanos ≤ (if s.hi.IsZero || s.hi.Before x.time then x.time else s.hi).nanos
    split
    · exact le_refl _
    · rename_i hc
      simp only [Time.IsZero, Time.Before, Bool.or_eq_true, decide_eq_true_eq, not_or, not_lt] at hc
      exact hc.2

theorem media_eq_nil_iff (files : List file) :
    media files = [] ↔ ∀ f ∈ files, f.isMedia = false := by
  simp [media, List.filter_eq_nil_iff]

theorem media_ne_nil_iff (files : List file) :
    media files ≠ [] ↔ ∃ f ∈ files, f.isMedia = true := by
  rw [Ne, media_eq_nil_iff]
  push_neg
  simp

/-- Invariant of the loop of `main` on the two bounds. -/
theorem aggregate_lo_hi (files : List file) :
    (media files = [] → (aggregate files).lo = Time.zero ∧ (aggregate files).hi = Time.zero) ∧
      (media files ≠ [] → (aggregate files).lo.nanos ≤ (aggregate files).hi.nanos) := by
  induction files using List.reverseRecOn with
  | nil => exact ⟨fun _ => ⟨rfl, rfl⟩, fun h => absurd rfl h⟩
  | append_singleton l x ih =>
    rw [aggregate_snoc, media_snoc]
    cases h : x.isMedia
    · simp only [aggregateStep_nonMedia _ _ h, Bool.false_eq_true, if_false]
      exact ih
    · simp only [if_true]
      refine ⟨fun hn => absurd hn (by simp), fun _ => ?_⟩
      have := aggregateStep_lo_hi (aggregate l) x h
      exact le_trans this.1 this.2

theorem extOccurrences_snoc (l : List file) (x : file) (k : String) :
    extOccurrences (l ++ [x]) k =
      extOccurrences l k + (if x.isMedia = false ∧ Ext x.path = k then 1 else 0) := by
  unfold extOccurrences
  rw [nonMedia_snoc]
  cases h : x.isMedia
  · by_cases hk : Ext x.path = k <;> simp [List.countP_append, List.countP_cons, hk]
  · simp

/-- The map after the loop, key by key. -/
theorem metadata_eq (files : List file) (k : String) :
    (aggregate files).metadata k =
      if extOccurrences files k = 0 then none else some (extOccurrences files k : Int) := by
  induction files using List.reverseRecOn with
  | nil => rfl
  | append_singleton l x ih =>
    rw [aggregate_snoc, extOccurrences_snoc]
    cases h : x.isMedia
    · rw [aggregateStep_nonMedia _ _ h]
      show ((aggregate l).metadata.incr (Ext x.path)) k = _
      unfold ExtCount.incr
      by_cases hk : k = Ext x.path
      · have hk' : Ext x.path = k := hk.symm
        simp only [hk, if_true, true_and] at ih ⊢
        rw [ih]
        by_cases hc : extOccurrences l (Ext x.path) = 0
        · simp [hc]
        · simp [hc]
      · have hk' : ¬ Ext x.path = k := fun e => hk e.symm
        simp only [hk, hk', if_false, and_false, Nat.add_zero]
        exact ih
    · rw [aggregateStep_media _ _ h]
      simpa using ih

/-- Invariant of the loop of `main` when no media record carries the zero time:
the bounds are media timestamps with the least and the greatest instant. -/
theorem aggregate_bounds (files : List file)
    (hnz : ∀ f ∈ files, f.isMedia = true → f.time.IsZero = false) :
    (media files = [] → (aggregate files).lo = Time.zero ∧ (aggregate files).hi = Time.zero) ∧
      (media files ≠ [] →
        (∃ f ∈ media files, (aggregate files).lo = f.time) ∧
        (∃ f ∈ media files, (aggregate files).hi = f.time) ∧
        ∀ f ∈ media files, (aggregate files).lo.nanos ≤ f.time.nanos ∧
          f.time.nanos ≤ (aggregate files).hi.nanos) := by
  induction files using List.reverseRecOn with
  | nil => exact ⟨fun _ => ⟨rfl, rfl⟩, fun h => absurd rfl h⟩
  | append_singleton l x ih =>
    have ih := ih (fun f hf => hnz f (List.mem_append_left _ hf))
    have hx := hnz x (List.mem_append_right _ (List.mem_singleton_self x))
    have hmem : ∀ f ∈ media l, f.time.IsZero = false := fun f hf =>
      hnz f (List.mem_append_left _ (List.mem_of_mem_filter hf))
        (by simpa using (List.mem_filter.1 hf).2)
    rw [aggregate_snoc, media_snoc]
    cases h : x.isMedia
    · simp only [aggregateStep_nonMedia _ _ h, Bool.false_eq_true, if_false]
      exact ih
    · simp only [if_true]
      refine ⟨fun hn => absurd hn (by simp), fun _ => ?_⟩
      rw [aggregateStep_media _ _ h]
      by_cases hl : media l = []
      · obtain ⟨h1, h2⟩ := ih.1 hl
        simp only [h1, h2, hl, List.nil_append, List.mem_singleton, exists_eq_left,
          forall_eq]
        simp [Time.IsZero, Time.zero]
      · obtain ⟨⟨a, ha, hlo⟩, ⟨b, hb, hhi⟩, hall⟩ := ih.2 hl
        have hloz : (aggregate l).lo.IsZero = false := by rw [hlo]; exact hmem a ha
        have hhiz : (aggregate l).hi.IsZero = false := by rw [hhi]; exact hmem b hb
        simp only [hloz, hhiz, Bool.false_or, List.mem_append, List.mem_singleton]
        refine ⟨?_, ?_, ?_⟩
        · by_cases hc : (aggregate l).lo.After x.time = true
          · exact ⟨x, Or.inr rfl, by rw [if_pos hc]⟩
          · exact ⟨a, Or.inl ha, by rw [if_neg hc]; exact hlo⟩
        · by_cases hc : (aggregate l).hi.Before x.time = true
          · exact ⟨x, Or.inr rfl, by rw [if_pos hc]⟩
          · exact ⟨b, Or.inl hb, by rw [if_neg hc]; exact hhi⟩
        · intro f hf
          simp only [Time.After, Time.Before, decide_eq_true_eq]
          split_ifs with hc hd hd <;> rcases hf with hf | hf <;>
            first
              | (subst hf; omega)
              | (have hf2 := hall f hf; omega)

theorem media_perm {files files' : List file} (h : files.Perm files') :
    (media files).Perm (media files') := h.filter _

theorem nonMedia_perm {files files' : List file} (h : files.Perm files') :
    (nonMedia files).Perm (nonMedia files') := h.filter _

theorem mem_media {files : List file} {f : file} :
    f ∈ media files ↔ f ∈ files ∧ f.isMedia = true := by
  simp [media, List.mem_filter]

/-! ## The claims -/

/-- C1: a record that a worker of `readFiles` emits for a walk entry is emitted
for a non-directory entry, carries the entry's path, and has `isMedia` true if
and only if the lower-cased extension of that path is one of `.cr2`, `.cr3`,
`.jpg`, `.mov`, `.mp4`, `.rw2`. -/
theorem readFiles_isMedia_iff_extension (env : Env) (args : walkDirFuncArgs) (f : file)
    (h : readFilesBody env args = .emitted f) :
    args.isDir = false ∧ f.path = args.path ∧
      (f.isMedia = true ↔
        env.toLower (Ext f.path) ∈ [".cr2", ".cr3", ".jpg", ".mov", ".mp4", ".rw2"]) := by
  obtain ⟨hd, hp, _, hm, _⟩ := readFilesBody_emitted env args f h
  refine ⟨hd, hp, ?_⟩
  rw [hp]
  exact hm

/-- Witness of C1: the photo of the sample card is media, its notes are not. -/
theorem readFiles_isMedia_iff_extension_witness :
    (sampleEnv.toLower (Ext "DCIM/photo.jpg") = ".jpg" ∧
      (true = true ↔
        sampleEnv.toLower (Ext "DCIM/photo.jpg") ∈ [".cr2", ".cr3", ".jpg", ".mov", ".mp4", ".rw2"])) ∧
    (sampleEnv.toLower (Ext "DCIM/notes.txt") = ".txt" ∧
      (false = true ↔
        sampleEnv.toLower (Ext "DCIM/notes.txt") ∈ [".cr2", ".cr3", ".jpg", ".mov", ".mp4", ".rw2"])) :=
  ⟨⟨by decide,
    (readFiles_isMedia_iff_extension sampleEnv ⟨"DCIM/photo.jpg", false, some 1000⟩
      ⟨"DCIM/photo.jpg", true, 1000, Date 2023 5 1 10 0 0 32400⟩ (by decide)).2.2⟩,
   ⟨by decide,
    (readFiles_isMedia_iff_extension sampleEnv ⟨"DCIM/notes.txt", false, some 200⟩
      ⟨"DCIM/notes.txt", false, 200, Time.zero⟩ (by decide)).2.2⟩⟩

/-- C2: a scan in which no `Info()` call and no `exifCreateDate` call fails runs
to completion, and in a completed scan `readFiles` emits exactly one record per
non-directory entry and none for a directory: in whatever order the workers
deliver them, the multiset of record paths is the multiset of the paths of the
non-directory entries, the number of records is the number of non-directory
entries, and a directory entry is skipped. -/
theorem readFiles_one_record_per_file (env : Env) (entries : List walkDirFuncArgs) :
    ((∀ e ∈ entries, e.isDir = false → e.info ≠ none) →
        (∀ e ∈ entries, e.isDir = false → env.toLower (Ext e.path) ∈ mediaExtensions →
          exifCreateDate env e.path ≠ none) →
        ∃ files, Scans env entries files) ∧
      (∀ files, Scans env entries files →
        Multiset.ofList (files.map (fun f => f.path))
          = Multiset.ofList ((nonDirs entries).map (fun e => e.path)) ∧
        files.length = (nonDirs entries).length) ∧
      (∀ e ∈ entries, e.isDir = true → readFilesBody env e = .skipped) := by
  refine ⟨fun hinfo hexif => ?_, fun files h => ?_, fun e _ hd => by simp [readFilesBody, hd]⟩
  · obtain ⟨recs, hr⟩ := readFiles_completes env entries hinfo hexif
    exact ⟨recs, recs, hr, List.Perm.refl _⟩
  · obtain ⟨recs, hr, hperm⟩ := h
    have hp := (readFiles_paths env entries recs hr).1
    constructor
    · rw [← hp]
      exact Quotient.sound (hperm.map _)
    · have := congrArg List.length hp
      simp only [List.length_map] at this
      rw [hperm.length_eq, this]

/-- Witness of C2: the sample card, its two records delivered in reverse order. -/
theorem readFiles_one_record_per_file_witness :
    (∃ files, Scans sampleEnv sampleEntries files) ∧
      Scans sampleEnv sampleEntries sampleFiles.reverse ∧
      Multiset.ofList (sampleFiles.reverse.map (fun f => f.path))
        = Multiset.ofList ((nonDirs sampleEntries).map (fun e => e.path)) ∧
      sampleFiles.reverse.length = 2 ∧ (nonDirs sampleEntries).length = 2 :=
  have hs : Scans sampleEnv sampleEntries sampleFiles.reverse :=
    ⟨sampleFiles, by decide, List.reverse_perm _⟩
  have h := readFiles_one_record_per_file sampleEnv sampleEntries
  ⟨h.1 (by decide) (by decide), hs, (h.2.1 sampleFiles.reverse hs).1, by decide, by decide⟩

/-- C3 as stated fails: two sparse files of 4 EiB each are scanned without
error, their sizes add up to 2^63, and `totalBytes` ends at -2^63. -/
theorem totalBytes_overflow_counterexample :
    Scans sampleEnv hugeEntries hugeFiles ∧
      ((nonDirs hugeEntries).map entrySize).sum = 9223372036854775808 ∧
      (aggregate hugeFiles).totalBytes = -9223372036854775808 ∧
      (aggregate hugeFiles).totalBytes ≠ ((nonDirs hugeEntries).map entrySize).sum :=
  ⟨⟨hugeFiles, by decide, List.Perm.refl _⟩, by decide, by decide, by decide⟩

/-- C3, amended: after a completed scan `totalBytes` is the sum of the sizes of
all non-directory entries (directories contribute nothing, media and non-media
files alike are counted once) reduced to `int64`; it is that sum itself
whenever the sum lies in the range of `int64`. -/
theorem totalBytes_eq_sum_of_sizes (env : Env) (entries : List walkDirFuncArgs)
    (files : List file) (h : Scans env entries files) :
    (aggregate files).totalBytes = wrap64 ((nonDirs entries).map entrySize).sum ∧
      (-9223372036854775808 ≤ ((nonDirs entries).map entrySize).sum →
        ((nonDirs entries).map entrySize).sum < 9223372036854775808 →
        (aggregate files).totalBytes = ((nonDirs entries).map entrySize).sum) := by
  obtain ⟨recs, hr, hperm⟩ := h
  have hs := (readFiles_paths env entries recs hr).2
  have key : (aggregate files).totalBytes = wrap64 ((nonDirs entries).map entrySize).sum := by
    rw [totalBytes_eq, sizeSum, (hperm.map _).sum_eq, hs]
  exact ⟨key, fun h₁ h₂ => by rw [key, wrap64_of_range _ h₁ h₂]⟩

/-- Witness of C3: the sample card totals 1200 bytes. -/
theorem totalBytes_eq_sum_of_sizes_witness :
    Scans sampleEnv sampleEntries sampleFiles ∧
      ((nonDirs sampleEntries).map entrySize).sum = 1200 ∧
      (aggregate sampleFiles).totalBytes = ((nonDirs sampleEntries).map entrySize).sum :=
  have hs : Scans sampleEnv sampleEntries sampleFiles := ⟨sampleFiles, by decide, List.Perm.refl _⟩
  ⟨hs, by decide,
    (totalBytes_eq_sum_of_sizes sampleEnv sampleEntries sampleFiles hs).2 (by decide) (by decide)⟩

/-- C4 as stated fails: with a single media record of size 0 the two byte
counts are equal although the list contains a media record; and with two
records of 4 EiB `totalBytes` wraps to -2^63, below `metadataBytes`. -/
theorem metadataBytes_counterexample :
    ((∀ f ∈ emptyPhoto, 0 ≤ f.size) ∧
        (aggregate emptyPhoto).metadataBytes = (aggregate emptyPhoto).totalBytes ∧
        ∃ f ∈ emptyPhoto, f.isMedia = true) ∧
      ((∀ f ∈ hugeMixed, 0 ≤ f.size) ∧
        ¬ (aggregate hugeMixed).metadataBytes ≤ (aggregate hugeMixed).totalBytes) :=
  ⟨⟨by decide, by decide, by decide⟩, by decide, by decide⟩

/-- C4, amended: for every list of records with sizes >= 0 whose sizes add up to
less than 2^63, after the loop `metadataBytes <= totalBytes`, with equality if
and only if every media record has size 0 (in particular when there is no media
record). -/
theorem metadataBytes_le_totalBytes (files : List file) (hsize : ∀ f ∈ files, 0 ≤ f.size)
    (hfit : sizeSum files < 9223372036854775808) :
    (aggregate files).metadataBytes ≤ (aggregate files).totalBytes ∧
      ((aggregate files).metadataBytes = (aggregate files).totalBytes ↔
        ∀ f ∈ files, f.isMedia = true → f.size = 0) ∧
      ((∀ f ∈ files, f.isMedia = false) →
        (aggregate files).metadataBytes = (aggregate files).totalBytes) := by
  have hn : ∀ f ∈ nonMedia files, 0 ≤ f.size := fun f hf =>
    hsize f (List.mem_of_mem_filter hf)
  have hm : ∀ f ∈ media files, 0 ≤ f.size := fun f hf =>
    hsize f (List.mem_of_mem_filter hf)
  have h0 := sizeSum_nonneg files hsize
  have h1 := sizeSum_nonneg _ hn
  have h2 := sizeSum_nonneg _ hm
  have hsplit := sizeSum_split files
  have hz := sizeSum_eq_zero_iff _ hm
  have hall : (∀ f ∈ media files, f.size = 0) ↔ ∀ f ∈ files, f.isMedia = true → f.size = 0 := by
    simp [media, List.mem_filter]
  rw [totalBytes_eq, metadataBytes_eq, wrap64_of_range _ (by omega) (by omega),
    wrap64_of_range _ (by omega) (by omega)]
  have hiff : sizeSum (nonMedia files) = sizeSum files ↔
      ∀ f ∈ files, f.isMedia = true → f.size = 0 := by
    rw [← hall, ← hz]
    constructor <;> intro h <;> omega
  refine ⟨by omega, hiff, fun hno => hiff.2 (fun f hf hmed => ?_)⟩
  rw [hno f hf] at hmed
  cases hmed

/-- Witness of C4: on the sample card 200 of 1200 bytes are not media. -/
theorem metadataBytes_le_totalBytes_witness :
    (∀ f ∈ sampleFiles, 0 ≤ f.size) ∧ sizeSum sampleFiles < 9223372036854775808 ∧
      (aggregate sampleFiles).metadataBytes = 200 ∧ (aggregate sampleFiles).totalBytes = 1200 ∧
      (aggregate sampleFiles).metadataBytes ≤ (aggregate sampleFiles).totalBytes :=
  ⟨by decide, by decide, by decide, by decide,
    (metadataBytes_le_totalBytes sampleFiles (by decide) (by decide)).1⟩

/-- C5: after the loop, if the list contains at least one media record then the
instant of `lo` is not after the instant of `hi`; if it contains no media
record then `lo` and `hi` are both the zero time. -/
theorem lo_le_hi (files : List file) :
    ((∃ f ∈ files, f.isMedia = true) →
        (aggregate files).lo.nanos ≤ (aggregate files).hi.nanos ∧
        (aggregate files).lo.After (aggregate files).hi = false) ∧
      ((∀ f ∈ files, f.isMedia = false) →
        (aggregate files).lo = Time.zero ∧ (aggregate files).hi = Time.zero ∧
        (aggregate files).lo.IsZero = true ∧ (aggregate files).hi.IsZero = true) := by
  have h := aggregate_lo_hi files
  constructor
  · intro hex
    have hle := h.2 ((media_ne_nil_iff files).2 hex)
    exact ⟨hle, by simp [Time.After, hle]⟩
  · intro hall
    obtain ⟨h1, h2⟩ := h.1 ((media_eq_nil_iff files).2 hall)
    refine ⟨h1, h2, ?_, ?_⟩
    · rw [h1]; rfl
    · rw [h2]; rfl

/-- Witness of C5: the sample card has a media record; a card with only the
notes file has none. -/
theorem lo_le_hi_witness :
    ((∃ f ∈ sampleFiles, f.isMedia = true) ∧
        (aggregate sampleFiles).lo.nanos ≤ (aggregate sampleFiles).hi.nanos) ∧
      ((∀ f ∈ sampleFiles.tail, f.isMedia = false) ∧
        (aggregate sampleFiles.tail).lo = Time.zero ∧ (aggregate sampleFiles.tail).hi = Time.zero) :=
  ⟨⟨by decide, ((lo_le_hi sampleFiles).1 (by decide)).1⟩,
    ⟨by decide, ((lo_le_hi sampleFiles.tail).2 (by decide)).1,
      ((lo_le_hi sampleFiles.tail).2 (by decide)).2.1⟩⟩

/-- C6 as stated fails. A photo with the zero time and a photo of 2022-01-15:
in one order the folder is `20220115_20220115`, in the other
`00010101_20220115`. Two photos of the same instant stamped in different zones:
in one order the folder is `20220115_20220115`, in the other
`20220116_20220116`. -/
theorem aggregate_order_counterexample :
    ([unsetPhoto, januaryPhoto].Perm [januaryPhoto, unsetPhoto] ∧
        (aggregate [unsetPhoto, januaryPhoto]).lo ≠ (aggregate [januaryPhoto, unsetPhoto]).lo ∧
        folderName (aggregate [unsetPhoto, januaryPhoto]) = "20220115_20220115" ∧
        folderName (aggregate [januaryPhoto, unsetPhoto]) = "00010101_20220115") ∧
      ([eveningWest, morningUTC].Perm [morningUTC, eveningWest] ∧
        eveningWest.time.IsZero = false ∧ morningUTC.time.IsZero = false ∧
        (aggregate [eveningWest, morningUTC]).lo ≠ (aggregate [morningUTC, eveningWest]).lo ∧
        folderName (aggregate [eveningWest, morningUTC]) = "20220115_20220115" ∧
        folderName (aggregate [morningUTC, eveningWest]) = "20220116_20220116") :=
  ⟨⟨List.Perm.swap _ _ _, by decide, by decide, by decide⟩,
    ⟨List.Perm.swap _ _ _, by decide, by decide, by decide, by decide, by decide⟩⟩

/-- C6, amended: for every list of records and every permutation of it the loop
yields the same `totalBytes`, `metadataBytes` and extension-count map. If no
media record carries the zero time, `lo` and `hi` have the same instants for
both orders; if moreover media records with the same instant carry the same
time value, `lo` and `hi`, hence the proposed destination, are the same. -/
theorem aggregate_perm (files files' : List file) (h : files.Perm files') :
    (aggregate files).totalBytes = (aggregate files').totalBytes ∧
      (aggregate files).metadataBytes = (aggregate files').metadataBytes ∧
      (aggregate files).metadata = (aggregate files').metadata ∧
      ((∀ f ∈ files, f.isMedia = true → f.time.IsZero = false) →
        (aggregate files).lo.nanos = (aggregate files').lo.nanos ∧
        (aggregate files).hi.nanos = (aggregate files').hi.nanos ∧
        ((∀ f ∈ files, ∀ g ∈ files, f.isMedia = true → g.isMedia = true →
            f.time.nanos = g.time.nanos → f.time = g.time) →
          (aggregate files).lo = (aggregate files').lo ∧
          (aggregate files).hi = (aggregate files').hi ∧
          ∀ (env : Env) (dst : String),
            destination env dst (aggregate files) = destination env dst (aggregate files'))) := by
  refine ⟨?_, ?_, ?_, ?_⟩
  · rw [totalBytes_eq, totalBytes_eq, sizeSum, sizeSum, (h.map _).sum_eq]
  · rw [metadataBytes_eq, metadataBytes_eq, sizeSum, sizeSum, ((nonMedia_perm h).map _).sum_eq]
  · funext k
    rw [metadata_eq, metadata_eq, extOccurrences, extOccurrences, (nonMedia_perm h).countP_eq]
  · intro hnz
    have hnz' : ∀ f ∈ files', f.isMedia = true → f.time.IsZero = false :=
      fun f hf => hnz f (h.mem_iff.2 hf)
    have hm := media_perm h
    have b := aggregate_bounds files hnz
    have b' := aggregate_bounds files' hnz'
    by_cases hl : media files = []
    · have hl' : media files' = [] := List.Perm.eq_nil (hl ▸ hm.symm)
      obtain ⟨h1, h2⟩ := b.1 hl
      obtain ⟨h1', h2'⟩ := b'.1 hl'
      refine ⟨by rw [h1, h1'], by rw [h2, h2'], fun _ => ⟨by rw [h1, h1'], by rw [h2, h2'], ?_⟩⟩
      intro env dst
      simp only [destination, folderName, h1, h1', h2, h2']
    · have hl' : media files' ≠ [] := fun e => hl (List.Perm.eq_nil (e ▸ hm))
      obtain ⟨⟨a, ha, hlo⟩, ⟨c, hc, hhi⟩, hall⟩ := b.2 hl
      obtain ⟨⟨a', ha', hlo'⟩, ⟨c', hc', hhi'⟩, hall'⟩ := b'.2 hl'
      have e1 : (aggregate files).lo.nanos = (aggregate files').lo.nanos := by
        have := (hall a' (hm.mem_iff.2 ha')).1
        have := (hall' a (hm.mem_iff.1 ha)).1
        rw [hlo, hlo'] at *
        omega
      have e2 : (aggregate files).hi.nanos = (aggregate files').hi.nanos := by
        have := (hall c' (hm.mem_iff.2 hc')).2
        have := (hall' c (hm.mem_iff.1 hc)).2
        rw [hhi, hhi'] at *
        omega
      refine ⟨e1, e2, fun hinj => ?_⟩
      have ha2 := mem_media.1 ha
      have ha2' := mem_media.1 (hm.mem_iff.2 ha')
      have hc2 := mem_media.1 hc
      have hc2' := mem_media.1 (hm.mem_iff.2 hc')
      have l1 : (aggregate files).lo = (aggregate files').lo := by
        rw [hlo, hlo'] at e1 ⊢
        exact hinj a ha2.1 a' ha2'.1 ha2.2 ha2'.2 e1
      have l2 : (aggregate files).hi = (aggregate files').hi := by
        rw [hhi, hhi'] at e2 ⊢
        exact hinj c hc2.1 c' hc2'.1 hc2.2 hc2'.2 e2
      refine ⟨l1, l2, fun env dst => ?_⟩
      simp only [destination, folderName, l1, l2]

/-- Witness of C6: the two media files of 2022-01-15 and 2022-03-20, in walk
order and reversed, give the folder `20220115_20220320`. -/
theorem aggregate_perm_witness :
    twoFiles.Perm twoFiles.reverse ∧
      (∀ f ∈ twoFiles, f.isMedia = true → f.time.IsZero = false) ∧
      (∀ f ∈ twoFiles, ∀ g ∈ twoFiles, f.isMedia = true → g.isMedia = true →
        f.time.nanos = g.time.nanos → f.time = g.time) ∧
      folderName (aggregate twoFiles) = "20220115_20220320" ∧
      folderName (aggregate twoFiles.reverse) = "20220115_20220320" ∧
      destination sampleEnv "/tank/photos" (aggregate twoFiles)
        = destination sampleEnv "/tank/photos" (aggregate twoFiles.reverse) :=
  ⟨(List.reverse_perm _).symm, by decide, by decide, by decide, by decide,
    (((aggregate_perm twoFiles twoFiles.reverse (List.reverse_perm _).symm).2.2.2
      (by decide)).2.2 (by decide)).2.2 sampleEnv "/tank/photos"⟩

/-- C7 as stated fails: a card with photos of 2022-01-15, of the zero time and
of 2022-03-20 is scanned without error, and after the loop `lo` is the
timestamp of 2022-03-20, later than the one of 2022-01-15: it is not the
minimum, and the folder is `20220320_20220320`. -/
theorem lo_not_minimum_counterexample :
    Scans sampleEnv unsetEntries unsetFiles ∧
      (∃ f ∈ unsetFiles, f.isMedia = true) ∧
      januaryPhoto ∈ unsetFiles ∧ januaryPhoto.isMedia = true ∧
      januaryPhoto.time.nanos < (aggregate unsetFiles).lo.nanos ∧
      ¬ (∀ f ∈ unsetFiles, f.isMedia = true →
          (aggregate unsetFiles).lo.nanos ≤ f.time.nanos) ∧
      folderName (aggregate unsetFiles) = "20220320_20220320" :=
  ⟨⟨unsetFiles, by decide, List.Perm.refl _⟩, by decide, by decide, by decide, by decide,
    by decide, by decide⟩

/-- C7, amended: for every list of records that contains at least one media
record and in which no media record carries the zero time, `lo` is the
timestamp of a media record with the least instant and `hi` the timestamp of a
media record with the greatest instant, and the proposed destination is
`filepath.Join(dst, D(lo) + "_" + D(hi)) + "/"`, `D` being `Format("20060102")`. -/
theorem lo_min_hi_max (env : Env) (dst : String) (files : List file)
    (hmedia : ∃ f ∈ files, f.isMedia = true)
    (hnz : ∀ f ∈ files, f.isMedia = true → f.time.IsZero = false) :
    (∃ f ∈ files, f.isMedia = true ∧ (aggregate files).lo = f.time) ∧
      (∃ f ∈ files, f.isMedia = true ∧ (aggregate files).hi = f.time) ∧
      (∀ f ∈ files, f.isMedia = true →
        (aggregate files).lo.nanos ≤ f.time.nanos ∧
        f.time.nanos ≤ (aggregate files).hi.nanos) ∧
      destination env dst (aggregate files)
        = env.join dst ((aggregate files).lo.Format ++ "_" ++ (aggregate files).hi.Format)
            ++ "/" := by
  obtain ⟨⟨a, ha, hlo⟩, ⟨c, hc, hhi⟩, hall⟩ :=
    (aggregate_bounds files hnz).2 ((media_ne_nil_iff files).2 hmedia)
  refine ⟨⟨a, (mem_media.1 ha).1, (mem_media.1 ha).2, hlo⟩,
    ⟨c, (mem_media.1 hc).1, (mem_media.1 hc).2, hhi⟩, ?_, rfl⟩
  intro f hf hm
  exact hall f (mem_media.2 ⟨hf, hm⟩)

/-- Witness of C7: one media file captured 2023-05-01 10:00:00 gives the folder
`20230501_20230501`; two captured 2022-01-15 and 2022-03-20 give
`20220115_20220320`. -/
theorem lo_min_hi_max_witness :
    ((∃ f ∈ sampleFiles, f.isMedia = true) ∧
        (∀ f ∈ sampleFiles, f.isMedia = true → f.time.IsZero = false) ∧
        (aggregate sampleFiles).lo.Format = "20230501" ∧
        (aggregate sampleFiles).hi.Format = "20230501" ∧
        destination sampleEnv "/tank/photos" (aggregate sampleFiles)
          = "/tank/photos/20230501_20230501/") ∧
      ((∃ f ∈ twoFiles, f.isMedia = true) ∧
        (∀ f ∈ twoFiles, f.isMedia = true → f.time.IsZero = false) ∧
        (aggregate twoFiles).lo.Format = "20220115" ∧
        (aggregate twoFiles).hi.Format = "20220320" ∧
        destination sampleEnv "/tank/photos" (aggregate twoFiles)
          = "/tank/photos/20220115_20220320/") :=
  ⟨⟨by decide, by decide, by decide, by decide,
      ((lo_min_hi_max sampleEnv "/tank/photos" sampleFiles (by decide) (by decide)).2.2.2).trans
        (by decide)⟩,
    ⟨by decide, by decide, by decide, by decide,
      ((lo_min_hi_max sampleEnv "/tank/photos" twoFiles (by decide) (by decide)).2.2.2).trans
        (by decide)⟩⟩

/-- C8 as stated fails: for the single non-media file `DCIM/NOTES.TXT` the map
has the key `.TXT`, which is not lower case, and no key `.txt`, although one
non-media record has the lower-cased extension `.txt`. -/
theorem metadata_key_counterexample :
    (aggregate capitalNotes).metadata ".TXT" = some 1 ∧
      sampleEnv.toLower ".TXT" ≠ ".TXT" ∧
      (aggregate capitalNotes).metadata ".txt" = none ∧
      ((nonMedia capitalNotes).filter
        (fun f => decide (sampleEnv.toLower (Ext f.path) = ".txt"))).length = 1 :=
  ⟨by decide, by decide, by decide, by decide⟩

/-- C8, amended: the extension-count map built by the loop is keyed by the file
extension as written in the path (`filepath.Ext(f.path)`, not lower-cased):
every key is the extension of a non-media record, and for every extension `e`
the count at `e` is the number of non-media records whose extension is `e`
(media records are never counted); `e` is a key exactly when that number is
not zero. -/
theorem metadata_counts_extensions (files : List file) (e : String) :
    (((aggregate files).metadata e).getD 0
        = ((files.filter (fun f => !f.isMedia)).countP (fun f => decide (Ext f.path = e)) : Nat)) ∧
      ((aggregate files).metadata e ≠ none ↔
        (files.filter (fun f => !f.isMedia)).countP (fun f => decide (Ext f.path = e)) ≠ 0) ∧
      ((aggregate files).metadata e ≠ none →
        ∃ f ∈ files, f.isMedia = false ∧ Ext f.path = e) := by
  have h := metadata_eq files e
  unfold extOccurrences nonMedia at h
  rw [h]
  by_cases hc : (files.filter (fun f => !f.isMedia)).countP (fun f => decide (Ext f.path = e)) = 0
  · simp [hc]
  · refine ⟨by simp [hc], by simp [hc], fun _ => ?_⟩
    have hpos := Nat.pos_of_ne_zero hc
    rw [List.countP_pos_iff] at hpos
    obtain ⟨f, hf, hp⟩ := hpos
    rw [List.mem_filter] at hf
    exact ⟨f, hf.1, by simpa using hf.2, by simpa using hp⟩

/-- Witness of C8: `DCIM/NOTES.TXT` is counted once, under the key `.TXT`. -/
theorem metadata_counts_extensions_witness :
    (aggregate capitalNotes).metadata ".TXT" ≠ none ∧
      ((aggregate capitalNotes).metadata ".TXT").getD 0 = 1 ∧
      ∃ f ∈ capitalNotes, f.isMedia = false ∧ Ext f.path = ".TXT" :=
  ⟨by decide,
    (metadata_counts_extensions capitalNotes ".TXT").1.trans (by decide),
    (metadata_counts_extensions capitalNotes ".TXT").2.2 (by decide)⟩

/-- C9 as stated fails: for `DCIM/unset.jpg`, whose creation date `exiftool`
prints as `0001:01:01 00:00:00+00:00`, `readFiles` emits a media record whose
timestamp is the zero time. -/
theorem media_zero_time_counterexample :
    readFilesBody sampleEnv ⟨"DCIM/unset.jpg", false, some 5⟩ = .emitted unsetPhoto ∧
      unsetPhoto.isMedia = true ∧ unsetPhoto.time.IsZero = true :=
  ⟨by decide, by decide, by decide⟩

/-- C9, amended: for every record emitted by `readFiles`, a non-media record
carries the zero time, so that a timestamp that is not zero belongs to a media
record; a media record carries the time `exifCreateDate` parsed from the
output of `exiftool`, whatever instant that is, and this call did not fail. -/
theorem readFiles_time (env : Env) (args : walkDirFuncArgs) (f : file)
    (h : readFilesBody env args = .emitted f) :
    (f.isMedia = false → f.time = Time.zero ∧ f.time.IsZero = true) ∧
      (f.time.IsZero = false → f.isMedia = true) ∧
      (f.isMedia = true → exifCreateDate env f.path = some f.time) := by
  obtain ⟨_, hp, _, _, hz, hx⟩ := readFilesBody_emitted env args f h
  refine ⟨fun hm => ⟨hz hm, by rw [hz hm]; rfl⟩, fun hnz => ?_, fun hm => by rw [hp]; exact hx hm⟩
  cases hm : f.isMedia
  · rw [hz hm] at hnz
    cases hnz
  · rfl

/-- Witness of C9: the photo of the sample card carries its capture time, which
is not zero. -/
theorem readFiles_time_witness :
    readFilesBody sampleEnv ⟨"DCIM/photo.jpg", false, some 1000⟩
        = .emitted ⟨"DCIM/photo.jpg", true, 1000, Date 2023 5 1 10 0 0 32400⟩ ∧
      (Date 2023 5 1 10 0 0 32400).IsZero = false ∧
      exifCreateDate sampleEnv "DCIM/photo.jpg" = some (Date 2023 5 1 10 0 0 32400) :=
  ⟨by decide, by decide,
    (readFiles_time sampleEnv ⟨"DCIM/photo.jpg", false, some 1000⟩
      ⟨"DCIM/photo.jpg", true, 1000, Date 2023 5 1 10 0 0 32400⟩ (by decide)).2.2 rfl⟩

/-- C10 as stated fails: `gm1` is a recognized camera name, yet with `--src` and
`--dst` unset the program reports invalid arguments, because the `gm1` case
sets only the destination and leaves the source empty. -/
theorem resolveArgs_counterexample :
    "gm1" ∈ cameraNames ∧ resolveArgs "" "" "gm1" = none ∧
      (applyCamera "" "" "gm1").1 = "" :=
  ⟨by decide, by decide, by decide⟩

/-- C10, amended: the preset switch followed by the validation succeeds if and
only if `--camera` is one of `5dii`, `gh5`, `r6`, `gopro`, or it is one of
`gm1`, `gx1s`, `gx1b` and `--src` is non-empty, or it is none of the seven names
and `--src` and `--dst` are both non-empty. The first four names set a source
and a destination path; `gm1`, `gx1s` and `gx1b` set a destination path and
leave the source unchanged; any other name leaves both unchanged. -/
theorem resolveArgs_ok_iff (src dst camera : String) :
    (resolveArgs src dst camera ≠ none ↔
        camera ∈ ["5dii", "gh5", "r6", "gopro"] ∨
        (camera ∈ ["gm1", "gx1s", "gx1b"] ∧ src ≠ "") ∨
        (camera ∉ ["5dii", "gh5", "r6", "gopro", "gm1", "gx1s", "gx1b"] ∧ src ≠ "" ∧ dst ≠ "")) ∧
      (camera ∈ ["5dii", "gh5", "r6", "gopro"] →
        (applyCamera src dst camera).1 ≠ "" ∧ (applyCamera src dst camera).2 ≠ "" ∧
        applyCamera src dst camera = applyCamera "" "" camera) ∧
      (camera ∈ ["gm1", "gx1s", "gx1b"] →
        (applyCamera src dst camera).1 = src ∧ (applyCamera src dst camera).2 ≠ "" ∧
        (applyCamera src dst camera).2 = (applyCamera "" "" camera).2) ∧
      (camera ∉ ["5dii", "gh5", "r6", "gopro", "gm1", "gx1s", "gx1b"] →
        applyCamera src dst camera = (src, dst)) := by
  unfold resolveArgs
  by_cases h1 : camera = "5dii"
  · subst h1; simp +decide [applyCamera]
  by_cases h2 : camera = "gh5"
  · subst h2; simp +decide [applyCamera]
  by_cases h3 : camera = "r6"
  · subst h3; simp +decide [applyCamera]
  by_cases h4 : camera = "gopro"
  · subst h4; simp +decide [applyCamera]
  by_cases h5 : camera = "gm1"
  · subst h5; simp +decide [applyCamera]
  by_cases h6 : camera = "gx1s"
  · subst h6; simp +decide [applyCamera]
  by_cases h7 : camera = "gx1b"
  · subst h7; simp +decide [applyCamera]
  simp [applyCamera, h1, h2, h3, h4, h5, h6, h7]

/-- Witness of C10: `r6` resolves both paths by itself, `gm1` needs `--src`, and
an unknown name leaves the two flags as given. -/
theorem resolveArgs_ok_iff_witness :
    (resolveArgs "" "" "r6"
        = some ("/media/keisuke/EOS_DIGITAL", "/tank/photos/keisuke/Pictures/R6") ∧
      (applyCamera "" "" "r6").1 ≠ "") ∧
    (resolveArgs "/mnt/card" "" "gm1" = some ("/mnt/card", "/tank/photos/keisuke/Pictures/GM1") ∧
      (applyCamera "/mnt/card" "" "gm1").1 = "/mnt/card") ∧
    (resolveArgs "/mnt/card" "/tank" "x100" = some ("/mnt/card", "/tank") ∧
      applyCamera "/mnt/card" "/tank" "x100" = ("/mnt/card", "/tank")) ∧
    resolveArgs "/mnt/card" "/tank" "x100" ≠ none :=
  ⟨⟨by decide, ((resolveArgs_ok_iff "" "" "r6").2.1 (by decide)).1⟩,
    ⟨by decide, ((resolveArgs_ok_iff "/mnt/card" "" "gm1").2.2.1 (by decide)).1⟩,
    ⟨by decide, (resolveArgs_ok_iff "/mnt/card" "/tank" "x100").2.2.2 (by decide)⟩,
    (resolveArgs_ok_iff "/mnt/card" "/tank" "x100").1.2 (Or.inr (Or.inr (by decide)))⟩

end CameraImport
